import Mathlib

/-!
Verification development for the SprintDesk session and realtime core.

Session protocol: shallow embedding of `backend/src/routes/auth.ts`
(register/login/refresh/logout route handlers over the `RefreshToken`
and `User` collections).

Realtime gateway: shallow embedding of `backend/src/socket.ts`
(handshake middleware, `join_workspace` handler, `emitWorkspaceEvent`).

Times are naturals (milliseconds); stores are association lists standing
for the Mongo collections, with `List.find?` playing `findOne` (first
match wins, as Mongo returns one document).
-/

namespace SprintDesk

/-- A persisted refresh-token record, as stored by the `RefreshToken`
model: owner, one-way hash of the opaque token, expiry, and the nullable
`revokedAt` mark. -/
structure RefreshRecord where
  id : Nat
  userId : Nat
  tokenHash : Nat
  expiresAt : Nat
  revokedAt : Option Nat
deriving DecidableEq, Repr

/-- A user document: the fields the session routes read. -/
structure User where
  id : Nat
  email : String
  name : String
  passwordHash : String
deriving DecidableEq, Repr

/-- The persistent state the session routes touch: the user collection,
the refresh-token collection, plus two counters. `nextTokenSeed` models
the entropy source behind `createRefreshToken()` — the spec describes it
as a high-entropy random value, never repeating in practice, so we model
successive draws as successive naturals. `nextRecordId` models Mongo
assigning a fresh `_id` to each created document. -/
structure Db where
  users : List User
  tokens : List RefreshRecord
  nextTokenSeed : Nat
  nextRecordId : Nat
deriving DecidableEq, Repr

/-- Modelled from the spec: `utils/tokens.ts` is absent from the sources;
the spec describes `hash(rawToken)` as a deterministic one-way digest used
for storage and lookup, so we model it as an injective function on token
values (collisions are negligible for the real digest). -/
def hashToken (rawToken : Nat) : Nat := rawToken

/-- Modelled from the spec: the refresh-token time-to-live is a fixed
positive constant configured in the absent `utils/tokens.ts`. -/
def refreshTtlMs : Nat := 2592000000

/-- Modelled from the spec: `refreshTokenExpiresAt()` returns now plus the
fixed TTL. -/
def refreshTokenExpiresAt (now : Nat) : Nat := now + refreshTtlMs

/-- `RefreshTokenModel.findOne({ tokenHash })`: first record whose
`tokenHash` matches. -/
def findByHash (db : Db) (h : Nat) : Option RefreshRecord :=
  db.tokens.find? (fun r => r.tokenHash == h)

/-- `UserModel.findById(uid)`: first user with the given id. -/
def findUser (db : Db) (uid : Nat) : Option User :=
  db.users.find? (fun u => u.id == uid)

/-- `UserModel.findOne({ email })`: first user with the given email. -/
def findUserByEmail (db : Db) (email : String) : Option User :=
  db.users.find? (fun u => u.email == email)

/-- `stored.revokedAt = new Date(); await stored.save()`: writes back the
one fetched document, identified by its `_id`. -/
def revokeById (tokens : List RefreshRecord) (rid now : Nat) : List RefreshRecord :=
  tokens.map fun r => if r.id == rid then { r with revokedAt := some now } else r

/-- The error kinds of §7's token taxonomy, refined from the route's
short-circuit check `!stored || stored.revokedAt || stored.expiresAt < now`
(all of them surface as HTTP 401). -/
inductive RefreshError where
  | TokenMissing
  | TokenInvalid
  | TokenRevoked
  | TokenExpired
  | UserNotFound
deriving DecidableEq, Repr

/-- The successful refresh response body: the new access assertion (we
record its subject), the user it names, and the rotated refresh token set
as the new cookie. -/
structure RefreshSuccess where
  accessTokenSub : Nat
  userId : Nat
  newRefreshToken : Nat
deriving DecidableEq, Repr

/-- The tail of the refresh handler after the `findOne` has returned its
snapshot: validate the snapshot, look up the user, revoke the stored
document, create the rotated record, respond.  Splitting the handler at
the read boundary is what lets us replay the interleavings the Node event
loop allows at the `await` points. -/
def refreshCommit (db : Db) (stored : Option RefreshRecord) (now : Nat) :
    Except RefreshError RefreshSuccess × Db :=
  match stored with
  | none => (.error .TokenInvalid, db)
  | some stored =>
    if stored.revokedAt.isSome then (.error .TokenRevoked, db)
    else if stored.expiresAt < now then (.error .TokenExpired, db)
    else
      match findUser db stored.userId with
      | none => (.error .UserNotFound, db)
      | some user =>
        let newRefresh := db.nextTokenSeed
        let newRecord : RefreshRecord :=
          { id := db.nextRecordId
            userId := user.id
            tokenHash := hashToken newRefresh
            expiresAt := refreshTokenExpiresAt now
            revokedAt := none }
        (.ok { accessTokenSub := user.id, userId := user.id, newRefreshToken := newRefresh },
         { db with
            tokens := revokeById db.tokens stored.id now ++ [newRecord]
            nextTokenSeed := db.nextTokenSeed + 1
            nextRecordId := db.nextRecordId + 1 })

/-- `POST /refresh`: read the cookie, look up the record by token hash,
then run the commit phase. -/
def refresh (db : Db) (cookie : Option Nat) (now : Nat) :
    Except RefreshError RefreshSuccess × Db :=
  match cookie with
  | none => (.error .TokenMissing, db)
  | some token => refreshCommit db (findByHash db (hashToken token)) now

/-- HTTP status of a refresh outcome: every error branch answers 401. -/
def refreshStatus : Except RefreshError RefreshSuccess → Nat
  | .error _ => 401
  | .ok _ => 200

/-- Wire message of a refresh outcome, as the route writes it. -/
def refreshMessage : Except RefreshError RefreshSuccess → String
  | .error .TokenMissing => "Missing refresh token"
  | .error .UserNotFound => "User not found"
  | .error _ => "Refresh token invalid"
  | .ok _ => ""

/-- `RefreshTokenModel.updateOne({ tokenHash, revokedAt: null },
{ revokedAt: now })`: revoke the first matching unrevoked record, if any. -/
def revokeFirstUnrevoked : List RefreshRecord → Nat → Nat → List RefreshRecord
  | [], _, _ => []
  | r :: rs, h, now =>
    if r.tokenHash == h && r.revokedAt.isNone then
      { r with revokedAt := some now } :: rs
    else
      r :: revokeFirstUnrevoked rs h now

/-- The logout wire response: `{ ok: true }` and the cleared cookie. -/
structure LogoutResponse where
  ok : Bool
  cookieCleared : Bool
deriving DecidableEq, Repr

/-- `POST /logout`: conditionally revoke the matching unrevoked record,
always clear the cookie and answer `{ ok: true }`. -/
def logout (db : Db) (cookie : Option Nat) (now : Nat) : LogoutResponse × Db :=
  match cookie with
  | none => ({ ok := true, cookieCleared := true }, db)
  | some token =>
    ({ ok := true, cookieCleared := true },
     { db with tokens := revokeFirstUnrevoked db.tokens (hashToken token) now })

/-- Modelled from the spec: bcrypt is an external primitive; we model its
salted hash as an injective tagging of the password so that
`bcryptCompare` compares a password against a stored hash. -/
def bcryptHash (password : String) : String := "bcrypt$" ++ password

/-- Modelled from the spec: `bcrypt.compare(password, hash)` holds exactly
when `hash` is the hash of `password`. -/
def bcryptCompare (password passwordHash : String) : Bool :=
  bcryptHash password == passwordHash

/-- `String(email).toLowerCase()`: lowercase every character.  Stated
structurally over the character list (extensionally `String.toLower`) so
that concrete instances evaluate. -/
def lowerEmail (s : String) : String := ⟨s.data.map Char.toLower⟩

/-- A login outcome at the wire level: the 400/401 constructors carry the
status and message the route writes, the success constructor carries the
body and the refresh cookie. -/
inductive LoginResult where
  | badRequest (message : String)
  | unauthorized (message : String)
  | ok (accessTokenSub : Nat) (userId : Nat) (refreshCookie : Nat)
deriving DecidableEq, Repr

/-- `POST /login`: missing fields give 400; unknown email or password
mismatch both give 401 "Invalid credentials"; success creates a refresh
record and answers with an access token and the refresh cookie. -/
def login (db : Db) (email password : String) (now : Nat) : LoginResult × Db :=
  if email = "" ∨ password = "" then (.badRequest "Missing credentials", db)
  else
    match findUserByEmail db (lowerEmail email) with
    | none => (.unauthorized "Invalid credentials", db)
    | some user =>
      if bcryptCompare password user.passwordHash then
        let refreshToken := db.nextTokenSeed
        let newRecord : RefreshRecord :=
          { id := db.nextRecordId
            userId := user.id
            tokenHash := hashToken refreshToken
            expiresAt := refreshTokenExpiresAt now
            revokedAt := none }
        (.ok user.id user.id refreshToken,
         { db with
            tokens := db.tokens ++ [newRecord]
            nextTokenSeed := db.nextTokenSeed + 1
            nextRecordId := db.nextRecordId + 1 })
      else (.unauthorized "Invalid credentials", db)

/-- Well-formedness of the session store, maintained by every route:
record ids are distinct (Mongo `_id`s), token hashes are distinct (each
comes from a fresh high-entropy draw), and both counters dominate every
stored value. -/
def Db.WF (db : Db) : Prop :=
  (db.tokens.map (fun r => r.id)).Nodup ∧
  (db.tokens.map (fun r => r.tokenHash)).Nodup ∧
  (∀ r ∈ db.tokens, r.tokenHash < hashToken db.nextTokenSeed) ∧
  (∀ r ∈ db.tokens, r.id < db.nextRecordId)

instance (db : Db) : Decidable db.WF := by
  unfold Db.WF; infer_instance

/-! ## Realtime gateway (`backend/src/socket.ts`) -/

/-- A membership document, as the gateway reads it:
`MembershipModel.findOne({ workspaceId, userId })`. -/
structure MembershipRef where
  workspaceId : String
  userId : String
deriving DecidableEq, Repr

/-- A gateway connection after a successful handshake: the user bound by
the middleware and the set of rooms it has joined. `socket.join` is
idempotent set insertion, modelled as insert-if-absent. -/
structure Conn where
  userId : String
  rooms : List String
deriving DecidableEq, Repr

/-- `workspaceRoom(workspaceId)` builds the room name for a workspace. -/
def workspaceRoom (workspaceId : String) : String := "workspace:" ++ workspaceId

/-- A `join_workspace` acknowledgement payload `{ ok, message? }`. -/
structure Ack where
  ok : Bool
  message : Option String
deriving DecidableEq, Repr

/-- `socket.join(room)`: idempotent insertion into the socket's rooms. -/
def joinRoom (rooms : List String) (room : String) : List String :=
  if rooms.contains room then rooms else rooms ++ [room]

/-- The `join_workspace` handler: empty workspace id is refused, a missing
membership answers `Forbidden`, otherwise the socket joins the workspace
room and the acknowledgement is `{ ok: true }`.  Failure acknowledgements
leave the connection untouched (no disconnect). -/
def joinWorkspace (memberships : List MembershipRef) (conn : Conn)
    (workspaceId : String) : Ack × Conn :=
  if workspaceId = "" then
    ({ ok := false, message := some "Workspace required" }, conn)
  else
    match memberships.find?
        (fun m => m.workspaceId == workspaceId && m.userId == conn.userId) with
    | none => ({ ok := false, message := some "Forbidden" }, conn)
    | some _ =>
      ({ ok := true, message := none },
       { conn with rooms := joinRoom conn.rooms (workspaceRoom workspaceId) })

/-- `io.to(workspaceRoom(wid)).emit(...)` reaches a connection exactly
when that connection is in the workspace room. -/
def receivesEvent (conn : Conn) (workspaceId : String) : Bool :=
  conn.rooms.contains (workspaceRoom workspaceId)

/-- `emitWorkspaceEvent`: the set of connections the broadcast reaches. -/
def emitWorkspaceEvent (conns : List Conn) (workspaceId : String) : List Conn :=
  conns.filter (fun c => receivesEvent c workspaceId)

/-- Modelled from the spec: the decoded access-assertion payload, with the
`sub` claim the middleware reads and the expiry that `jwt.verify`
enforces. -/
structure AssertionPayload where
  sub : Option String
  expiresAt : Nat
deriving DecidableEq, Repr

/-- Modelled from the spec: a signed token is a payload plus the key it
was signed with; `sig = secret` models a signature that verifies under
`secret`. -/
structure SignedToken where
  payload : AssertionPayload
  sig : Nat
deriving DecidableEq, Repr

/-- Modelled from the spec: `jwt.verify(token, secret)` succeeds exactly
when the signature verifies under the key and the assertion is unexpired;
it is a pure function of the token and the key, consulting no storage. -/
def jwtVerify (token : SignedToken) (secret : Nat) (now : Nat) :
    Option AssertionPayload :=
  if token.sig == secret && now < token.payload.expiresAt then
    some token.payload
  else none

/-- Handshake outcome: `rejected` models `next(new Error("Unauthorized"))`
— the connection never comes into being — while `accepted` carries the
bound connection. -/
inductive HandshakeResult where
  | rejected
  | accepted (conn : Conn)
deriving DecidableEq, Repr

/-- The `io.use` middleware: missing or non-string token, failed
verification, or an absent `sub` claim all reject; success binds
`socket.data.userId = payload.sub` with no rooms joined yet. -/
def authMiddleware (secret now : Nat) (auth : Option SignedToken) :
    HandshakeResult :=
  match auth with
  | none => .rejected
  | some token =>
    match jwtVerify token secret now with
    | none => .rejected
    | some payload =>
      match payload.sub with
      | none => .rejected
      | some uid => .accepted { userId := uid, rooms := [] }

/-! ## Concrete scenario states -/

/-- One user whose password is "pw". -/
def userA : User := { id := 7, email := "a@b.c", name := "A", passwordHash := bcryptHash "pw" }

/-- A store holding `userA` and one valid refresh record for token 0. -/
def dbOne : Db :=
  { users := [userA]
    tokens := [{ id := 0, userId := 7, tokenHash := hashToken 0, expiresAt := 100, revokedAt := none }]
    nextTokenSeed := 1
    nextRecordId := 1 }

/-- A store for the reuse scenario: `userA` holds one already-revoked
record (token 0) and two currently-valid records (tokens 1 and 2), as
after two logins and one consumed rotation. -/
def dbReuse : Db :=
  { users := [userA]
    tokens :=
      [{ id := 0, userId := 7, tokenHash := hashToken 0, expiresAt := 100, revokedAt := some 10 },
       { id := 1, userId := 7, tokenHash := hashToken 1, expiresAt := 100, revokedAt := none },
       { id := 2, userId := 7, tokenHash := hashToken 2, expiresAt := 100, revokedAt := none }]
    nextTokenSeed := 3
    nextRecordId := 3 }

/-- A valid refresh record owned by the nonexistent user 9. -/
def recOrphan : RefreshRecord :=
  { id := 0, userId := 9, tokenHash := hashToken 0, expiresAt := 100, revokedAt := none }

/-- A store holding a valid refresh record whose owning user (id 9) does
not exist. -/
def dbOrphan : Db :=
  { users := []
    tokens := [recOrphan]
    nextTokenSeed := 1
    nextRecordId := 1 }

/-- A record expiring exactly at instant 50. -/
def recBoundary : RefreshRecord :=
  { id := 0, userId := 7, tokenHash := hashToken 0, expiresAt := 50, revokedAt := none }

/-- A store whose single record expires exactly at instant 50. -/
def dbBoundary : Db :=
  { users := [userA]
    tokens := [recBoundary]
    nextTokenSeed := 1
    nextRecordId := 1 }

/-- N sequential Refresh calls on one lineage: each successful call feeds
the rotated token it received into the next call; the list collects the
rotated tokens in order. -/
def refreshChain (db : Db) (t : Nat) (now : Nat) : Nat → List Nat × Db
  | 0 => ([], db)
  | n + 1 =>
    match refresh db (some t) now with
    | (.ok s, db') =>
      let rest := refreshChain db' s.newRefreshToken now n
      (s.newRefreshToken :: rest.1, rest.2)
    | (.error _, dbe) => ([], dbe)

/-! ## Claims -/

/-- C5: a Login that fails because the email is unknown and a Login that
fails because the password mismatches produce identical wire responses
(401, "Invalid credentials"), and neither changes the store. -/
theorem C5_login_wire_indistinguishable (db1 db2 : Db) (e1 p1 e2 p2 : String)
    (now1 now2 : Nat) (u : User)
    (he1 : e1 ≠ "") (hp1 : p1 ≠ "")
    (he2 : e2 ≠ "") (hp2 : p2 ≠ "")
    (hunknown : findUserByEmail db1 (lowerEmail e1) = none)
    (hknown : findUserByEmail db2 (lowerEmail e2) = some u)
    (hmismatch : bcryptCompare p2 u.passwordHash = false) :
    (login db1 e1 p1 now1).1 = .unauthorized "Invalid credentials" ∧
    (login db2 e2 p2 now2).1 = .unauthorized "Invalid credentials" ∧
    (login db1 e1 p1 now1).1 = (login db2 e2 p2 now2).1 ∧
    (login db1 e1 p1 now1).2 = db1 ∧ (login db2 e2 p2 now2).2 = db2 := by
  simp [login, he1, hp1, he2, hp2, hunknown, hknown, hmismatch]

/-- Witness for C5 at a concrete pair of failing logins. -/
theorem C5_login_wire_indistinguishable_witness :
    (login dbOne "x@y.z" "pw" 50).1 = .unauthorized "Invalid credentials" ∧
    (login dbOne "a@b.c" "wrong" 50).1 = .unauthorized "Invalid credentials" ∧
    (login dbOne "x@y.z" "pw" 50).1 = (login dbOne "a@b.c" "wrong" 50).1 ∧
    (login dbOne "x@y.z" "pw" 50).2 = dbOne ∧ (login dbOne "a@b.c" "wrong" 50).2 = dbOne :=
  C5_login_wire_indistinguishable dbOne dbOne "x@y.z" "pw" "a@b.c" "wrong" 50 50 userA
    (by decide) (by decide) (by decide) (by decide) (by decide) (by decide) (by decide)

/-- C10: when the presented token's record is valid but the owning user no
longer exists, Refresh answers 401 and leaves the store untouched — the
record is not revoked and no new record is created. -/
theorem C10_refresh_orphan_record (db : Db) (t now : Nat) (r : RefreshRecord)
    (hr : findByHash db (hashToken t) = some r)
    (hrev : r.revokedAt = none) (hexp : ¬ r.expiresAt < now)
    (huser : findUser db r.userId = none) :
    refresh db (some t) now = (.error .UserNotFound, db) ∧
    refreshStatus (refresh db (some t) now).1 = 401 := by
  simp [refresh, refreshCommit, hr, hrev, hexp, huser, refreshStatus]

/-- Witness for C10 on the store with a record owned by a missing user. -/
theorem C10_refresh_orphan_record_witness :
    refresh dbOrphan (some 0) 50 = (.error .UserNotFound, dbOrphan) ∧
    refreshStatus (refresh dbOrphan (some 0) 50).1 = 401 :=
  C10_refresh_orphan_record dbOrphan 0 50
    { id := 0, userId := 9, tokenHash := hashToken 0, expiresAt := 100, revokedAt := none }
    (by decide) (by decide) (by decide) (by decide)

/-- C2: the code does not cascade-revoke on reuse.  In `dbReuse`, replaying
the revoked token 0 answers `TokenRevoked` but leaves the store unchanged,
and refreshing with either sibling token 1 or 2 afterwards still answers
200 — the claim requires both to fail with `TokenRevoked`. -/
theorem C2_reuse_has_no_cascade :
    (refresh dbReuse (some 0) 50).1 = .error .TokenRevoked ∧
    (refresh dbReuse (some 0) 50).2 = dbReuse ∧
    refreshStatus (refresh (refresh dbReuse (some 0) 50).2 (some 1) 50).1 = 200 ∧
    refreshStatus (refresh (refresh dbReuse (some 0) 50).2 (some 2) 50).1 = 200 :=
  ⟨rfl, rfl, rfl, rfl⟩

/-- C3: the rotation sequence is not guarded by an atomic conditional
update.  Interleaving two Refresh calls on the same valid token 0 so that
both `findOne` reads happen before either write (which the Node event
loop allows, since validation runs on the in-memory snapshot) makes both
calls succeed, each minting its own rotated token. -/
theorem C3_concurrent_refresh_both_succeed :
    (refreshCommit dbOne (findByHash dbOne (hashToken 0)) 50).1 =
      .ok { accessTokenSub := 7, userId := 7, newRefreshToken := 1 } ∧
    (refreshCommit (refreshCommit dbOne (findByHash dbOne (hashToken 0)) 50).2
        (findByHash dbOne (hashToken 0)) 50).1 =
      .ok { accessTokenSub := 7, userId := 7, newRefreshToken := 2 } ∧
    refresh dbOne (some 0) 50 = refreshCommit dbOne (findByHash dbOne (hashToken 0)) 50 :=
  ⟨rfl, rfl, rfl⟩

/-! ## Gateway helper lemmas -/

lemma joinRoom_contains_self (rooms : List String) (room : String) :
    (joinRoom rooms room).contains room = true := by
  unfold joinRoom
  split
  · assumption
  · simp

lemma joinRoom_contains_of_ne (rooms : List String) (room r2 : String) (h : r2 ≠ room) :
    (joinRoom rooms room).contains r2 = rooms.contains r2 := by
  unfold joinRoom
  split
  · rfl
  · simp [h]

lemma workspaceRoom_injective {a b : String} (h : workspaceRoom a = workspaceRoom b) :
    a = b := by
  have h2 := congrArg String.data h
  simp [workspaceRoom, String.data_append] at h2
  exact String.ext h2

/-- C7: `join_workspace` acknowledges failure (keeping the connection)
exactly when the workspace id is empty or no membership pairs it with the
connection's user; on success the connection is in the workspace's room
and the acknowledgement is positive. -/
theorem C7_join_workspace_gate (memberships : List MembershipRef) (conn : Conn)
    (wid : String) :
    ((joinWorkspace memberships conn wid).1.ok = false ↔
      wid = "" ∨ ¬ ∃ m ∈ memberships, m.workspaceId = wid ∧ m.userId = conn.userId) ∧
    ((joinWorkspace memberships conn wid).1.ok = false →
      (joinWorkspace memberships conn wid).2 = conn) ∧
    ((joinWorkspace memberships conn wid).1.ok = true →
      receivesEvent (joinWorkspace memberships conn wid).2 wid = true ∧
      (joinWorkspace memberships conn wid).2.userId = conn.userId) := by
  unfold joinWorkspace
  by_cases hw : wid = ""
  · simp [hw]
  · cases hfind : memberships.find?
        (fun m => m.workspaceId == wid && m.userId == conn.userId) with
    | none =>
      have hall := List.find?_eq_none.mp hfind
      simp only [if_neg hw, hfind]
      refine ⟨⟨fun _ => Or.inr ?_, fun _ => trivial⟩, fun _ => trivial,
        fun h => Bool.noConfusion h⟩
      rintro ⟨m, hm, hww, huu⟩
      have := hall m hm
      simp [hww, huu] at this
    | some m =>
      have hmem := List.mem_of_find?_eq_some hfind
      have hpred := List.find?_some hfind
      simp only [Bool.and_eq_true, beq_iff_eq] at hpred
      simp only [if_neg hw, hfind]
      refine ⟨⟨fun h => Bool.noConfusion h, ?_⟩, fun h => Bool.noConfusion h,
        fun _ => ⟨?_, trivial⟩⟩
      · rintro (h | h)
        · exact absurd h hw
        · exact absurd ⟨m, hmem, hpred.1, hpred.2⟩ h
      · exact joinRoom_contains_self _ _

/-- Witness for C7 on a one-membership directory. -/
theorem C7_join_workspace_gate_witness :
    ((joinWorkspace [{ workspaceId := "w1", userId := "u1" }]
        { userId := "u1", rooms := [] } "w1").1.ok = false ↔
      "w1" = "" ∨ ¬ ∃ m ∈ [({ workspaceId := "w1", userId := "u1" } : MembershipRef)],
        m.workspaceId = "w1" ∧ m.userId = ({ userId := "u1", rooms := [] } : Conn).userId) ∧
    ((joinWorkspace [{ workspaceId := "w1", userId := "u1" }]
        { userId := "u1", rooms := [] } "w1").1.ok = false →
      (joinWorkspace [{ workspaceId := "w1", userId := "u1" }]
        { userId := "u1", rooms := [] } "w1").2 = { userId := "u1", rooms := [] }) ∧
    ((joinWorkspace [{ workspaceId := "w1", userId := "u1" }]
        { userId := "u1", rooms := [] } "w1").1.ok = true →
      receivesEvent (joinWorkspace [{ workspaceId := "w1", userId := "u1" }]
        { userId := "u1", rooms := [] } "w1").2 "w1" = true ∧
      (joinWorkspace [{ workspaceId := "w1", userId := "u1" }]
        { userId := "u1", rooms := [] } "w1").2.userId =
        ({ userId := "u1", rooms := [] } : Conn).userId) :=
  C7_join_workspace_gate [{ workspaceId := "w1", userId := "u1" }]
    { userId := "u1", rooms := [] } "w1"

/-- C8: broadcasts reach exactly the room members — a connection with no
joined room receives nothing, failed joins change nothing, a successful
join to W makes the connection receive W, a join to W never makes it
receive a different W2, and `emitWorkspaceEvent` selects only connections
in the workspace's room. -/
theorem C8_broadcast_only_to_joined (ms : List MembershipRef) (c : Conn)
    (uid w w2 : String) (conns : List Conn) (cdel : Conn) :
    receivesEvent { userId := uid, rooms := [] } w = false ∧
    ((joinWorkspace ms c w).1.ok = false → (joinWorkspace ms c w).2 = c) ∧
    ((joinWorkspace ms c w).1.ok = true →
      receivesEvent (joinWorkspace ms c w).2 w = true) ∧
    (w2 ≠ w → receivesEvent c w2 = false →
      receivesEvent (joinWorkspace ms c w).2 w2 = false) ∧
    (cdel ∈ emitWorkspaceEvent conns w → receivesEvent cdel w = true ∧ cdel ∈ conns) := by
  refine ⟨by simp [receivesEvent], ?_, ?_, ?_, ?_⟩
  · intro h
    unfold joinWorkspace at h ⊢
    by_cases hw : w = ""
    · simp [hw]
    · cases hfind : ms.find? (fun m => m.workspaceId == w && m.userId == c.userId) with
      | none => simp [hw, hfind]
      | some m => simp [hw, hfind] at h
  · intro h
    unfold joinWorkspace at h ⊢
    by_cases hw : w = ""
    · simp [hw] at h
    · cases hfind : ms.find? (fun m => m.workspaceId == w && m.userId == c.userId) with
      | none => simp [hw, hfind] at h
      | some m =>
        simp only [if_neg hw, hfind]
        exact joinRoom_contains_self _ _
  · intro hne hrec
    unfold joinWorkspace
    by_cases hw : w = ""
    · simpa [hw] using hrec
    · cases hfind : ms.find? (fun m => m.workspaceId == w && m.userId == c.userId) with
      | none => simpa [hw, hfind] using hrec
      | some m =>
        simp only [if_neg hw, hfind]
        unfold receivesEvent at hrec ⊢
        have hroom : workspaceRoom w2 ≠ workspaceRoom w :=
          fun h => hne (workspaceRoom_injective h)
        rw [joinRoom_contains_of_ne _ _ _ hroom]
        exact hrec
  · intro h
    unfold emitWorkspaceEvent at h
    have := List.mem_filter.mp h
    exact ⟨this.2, this.1⟩

/-- Witness for C8 on a two-workspace scenario. -/
theorem C8_broadcast_only_to_joined_witness :
    receivesEvent { userId := "u1", rooms := [] } "w1" = false ∧
    ((joinWorkspace [{ workspaceId := "w1", userId := "u1" }]
        { userId := "u1", rooms := [] } "w1").1.ok = false →
      (joinWorkspace [{ workspaceId := "w1", userId := "u1" }]
        { userId := "u1", rooms := [] } "w1").2 = { userId := "u1", rooms := [] }) ∧
    ((joinWorkspace [{ workspaceId := "w1", userId := "u1" }]
        { userId := "u1", rooms := [] } "w1").1.ok = true →
      receivesEvent (joinWorkspace [{ workspaceId := "w1", userId := "u1" }]
        { userId := "u1", rooms := [] } "w1").2 "w1" = true) ∧
    ("w2" ≠ "w1" → receivesEvent { userId := "u1", rooms := [] } "w2" = false →
      receivesEvent (joinWorkspace [{ workspaceId := "w1", userId := "u1" }]
        { userId := "u1", rooms := [] } "w1").2 "w2" = false) ∧
    (({ userId := "u1", rooms := [] } : Conn) ∈
        emitWorkspaceEvent [{ userId := "u1", rooms := [] }] "w1" →
      receivesEvent { userId := "u1", rooms := [] } "w1" = true ∧
      ({ userId := "u1", rooms := [] } : Conn) ∈
        [({ userId := "u1", rooms := [] } : Conn)]) :=
  C8_broadcast_only_to_joined [{ workspaceId := "w1", userId := "u1" }]
    { userId := "u1", rooms := [] } "u1" "w1" "w2"
    [{ userId := "u1", rooms := [] }] { userId := "u1", rooms := [] }

/-- C9: the handshake middleware rejects exactly the missing, unsigned,
expired, or subject-less assertions, and an accepted connection is bound
to the assertion's subject with no room joined yet — so no
`join_workspace` can have happened before authentication. -/
theorem C9_handshake_rejects_bad_assertions (secret now : Nat)
    (auth : Option SignedToken) :
    (authMiddleware secret now auth = .rejected ↔
      auth = none ∨ ∃ tk, auth = some tk ∧
        (tk.sig ≠ secret ∨ tk.payload.expiresAt ≤ now ∨ tk.payload.sub = none)) ∧
    (∀ c, authMiddleware secret now auth = .accepted c →
      ∃ tk uid, auth = some tk ∧ tk.sig = secret ∧ now < tk.payload.expiresAt ∧
        tk.payload.sub = some uid ∧ c.userId = uid ∧ c.rooms = []) := by
  constructor
  · constructor
    · intro hrej
      cases auth with
      | none => exact Or.inl rfl
      | some tk =>
        refine Or.inr ⟨tk, rfl, ?_⟩
        by_cases hsig : tk.sig = secret
        · by_cases hexp : now < tk.payload.expiresAt
          · cases hsub : tk.payload.sub with
            | none => exact Or.inr (Or.inr rfl)
            | some uid =>
              exfalso
              have hcond : (tk.sig == secret && decide (now < tk.payload.expiresAt)) = true := by
                simp [hsig, hexp]
              simp [authMiddleware, jwtVerify, hcond, hsub] at hrej
          · exact Or.inr (Or.inl (by omega))
        · exact Or.inl hsig
    · intro hbad
      rcases hbad with hnone | ⟨tk, htk, hbad⟩
      · subst hnone; rfl
      · subst htk
        rcases hbad with hsig | hexp | hsub
        · have hcond : (tk.sig == secret && decide (now < tk.payload.expiresAt)) = false := by
            simp [hsig]
          simp [authMiddleware, jwtVerify, hcond]
        · have hcond : (tk.sig == secret && decide (now < tk.payload.expiresAt)) = false := by
            have : ¬ now < tk.payload.expiresAt := by omega
            simp [this]
          simp [authMiddleware, jwtVerify, hcond]
        · by_cases hcond : (tk.sig == secret && decide (now < tk.payload.expiresAt)) = true
          · simp [authMiddleware, jwtVerify, hcond, hsub]
          · simp [authMiddleware, jwtVerify, hcond]
  · intro c h
    cases auth with
    | none => simp [authMiddleware] at h
    | some tk =>
      by_cases hcond : (tk.sig == secret && decide (now < tk.payload.expiresAt)) = true
      · have hok : tk.sig = secret ∧ now < tk.payload.expiresAt := by
          simpa using hcond
        cases hsub : tk.payload.sub with
        | none => simp [authMiddleware, jwtVerify, hcond, hsub] at h
        | some uid =>
          simp only [authMiddleware, jwtVerify, hcond, if_true, hsub] at h
          cases h
          exact ⟨tk, uid, rfl, hok.1, hok.2, hsub, rfl, rfl⟩
      · simp [authMiddleware, jwtVerify, hcond] at h

/-- Witness for C9 on a concrete accepted handshake. -/
theorem C9_handshake_rejects_bad_assertions_witness :
    (authMiddleware 5 10 (some { payload := { sub := some "u1", expiresAt := 20 }, sig := 5 })
        = .rejected ↔
      (some { payload := { sub := some "u1", expiresAt := 20 }, sig := 5 }
          : Option SignedToken) = none ∨
      ∃ tk, (some { payload := { sub := some "u1", expiresAt := 20 }, sig := 5 }
          : Option SignedToken) = some tk ∧
        (tk.sig ≠ 5 ∨ tk.payload.expiresAt ≤ 10 ∨ tk.payload.sub = none)) ∧
    (∀ c, authMiddleware 5 10
        (some { payload := { sub := some "u1", expiresAt := 20 }, sig := 5 }) = .accepted c →
      ∃ tk uid, (some { payload := { sub := some "u1", expiresAt := 20 }, sig := 5 }
          : Option SignedToken) = some tk ∧ tk.sig = 5 ∧ 10 < tk.payload.expiresAt ∧
        tk.payload.sub = some uid ∧ c.userId = uid ∧ c.rooms = []) :=
  C9_handshake_rejects_bad_assertions 5 10
    (some { payload := { sub := some "u1", expiresAt := 20 }, sig := 5 })

/-! ## Logout lemmas -/

lemma revokeFirstUnrevoked_of_no_match (tokens : List RefreshRecord) (h now : Nat)
    (hno : ∀ r ∈ tokens, ¬(r.tokenHash = h ∧ r.revokedAt = none)) :
    revokeFirstUnrevoked tokens h now = tokens := by
  induction tokens with
  | nil => rfl
  | cons r rs ih =>
    have hr := hno r (List.mem_cons_self r rs)
    have hcond : (r.tokenHash == h && r.revokedAt.isNone) = false := by
      cases hrev : r.revokedAt with
      | none =>
        have : r.tokenHash ≠ h := fun hh => hr ⟨hh, hrev⟩
        simp [this]
      | some v => simp [hrev]
    simp [revokeFirstUnrevoked, hcond,
      ih (fun x hx => hno x (List.mem_cons_of_mem _ hx))]

lemma revokeFirstUnrevoked_exhausts (tokens : List RefreshRecord) (h now : Nat)
    (hnodup : (tokens.map (fun r => r.tokenHash)).Nodup) :
    ∀ r ∈ revokeFirstUnrevoked tokens h now,
      ¬(r.tokenHash = h ∧ r.revokedAt = none) := by
  induction tokens with
  | nil => intro r hr; simp [revokeFirstUnrevoked] at hr
  | cons r rs ih =>
    simp only [List.map_cons, List.nodup_cons] at hnodup
    by_cases hcond : (r.tokenHash == h && r.revokedAt.isNone) = true
    · have hrh : r.tokenHash = h := by
        simp only [Bool.and_eq_true, beq_iff_eq] at hcond
        exact hcond.1
      simp only [revokeFirstUnrevoked, hcond, if_true]
      intro x hx
      rcases List.mem_cons.mp hx with hx | hx
      · subst hx; simp
      · rintro ⟨hxh, _⟩
        exact hnodup.1 (hrh ▸ hxh ▸ List.mem_map_of_mem (fun r => r.tokenHash) hx)
    · simp only [revokeFirstUnrevoked, hcond, if_false, Bool.false_eq_true]
      intro x hx
      rcases List.mem_cons.mp hx with hx | hx
      · subst hx
        rintro ⟨hxh, hxrev⟩
        exact hcond (by simp [hxh, hxrev])
      · exact ih hnodup.2 x hx

lemma revokeFirstUnrevoked_mem (tokens : List RefreshRecord) (h now : Nat)
    (hnodup : (tokens.map (fun r => r.tokenHash)).Nodup) (r : RefreshRecord)
    (hr : r ∈ tokens) (hh : r.tokenHash = h) (hrev : r.revokedAt = none) :
    { r with revokedAt := some now } ∈ revokeFirstUnrevoked tokens h now := by
  induction tokens with
  | nil => cases hr
  | cons x xs ih =>
    simp only [List.map_cons, List.nodup_cons] at hnodup
    rcases List.mem_cons.mp hr with hhead | htail
    · subst hhead
      have hcond : (r.tokenHash == h && r.revokedAt.isNone) = true := by
        simp [hh, hrev]
      simp [revokeFirstUnrevoked, hcond]
    · by_cases hcond : (x.tokenHash == h && x.revokedAt.isNone) = true
      · exfalso
        have hxh : x.tokenHash = h := by
          simp only [Bool.and_eq_true, beq_iff_eq] at hcond
          exact hcond.1
        exact hnodup.1 (hxh ▸ hh ▸ List.mem_map_of_mem (fun r => r.tokenHash) htail)
      · simp only [revokeFirstUnrevoked, hcond, if_false, Bool.false_eq_true]
        exact List.mem_cons_of_mem _ (ih hnodup.2 htail)

/-- C6: Logout always answers `{ ok: true }` with the cookie cleared; with
no matching unrevoked record it changes nothing, with one it revokes it;
and a second Logout with the same cookie answers success again and leaves
the store of the first call untouched. -/
theorem C6_logout_idempotent (db : Db) (cookie : Option Nat) (now now2 : Nat)
    (hnodup : (db.tokens.map (fun r => r.tokenHash)).Nodup) :
    (logout db cookie now).1 = { ok := true, cookieCleared := true } ∧
    ((∀ t, cookie = some t →
        ∀ r ∈ db.tokens, ¬(r.tokenHash = hashToken t ∧ r.revokedAt = none)) →
      (logout db cookie now).2 = db) ∧
    (∀ t' r, cookie = some t' → r ∈ db.tokens → r.tokenHash = hashToken t' →
      r.revokedAt = none →
      { r with revokedAt := some now } ∈ (logout db cookie now).2.tokens) ∧
    logout (logout db cookie now).2 cookie now2 =
      ({ ok := true, cookieCleared := true }, (logout db cookie now).2) := by
  cases cookie with
  | none => simp [logout]
  | some t =>
    refine ⟨rfl, ?_, ?_, ?_⟩
    · intro hno
      simp [logout, revokeFirstUnrevoked_of_no_match db.tokens (hashToken t) now (hno t rfl)]
    · intro t' r ht' hr hh hrev
      cases ht'
      simpa [logout] using revokeFirstUnrevoked_mem db.tokens (hashToken t) now hnodup r hr hh hrev
    · have hafter : ∀ r ∈ revokeFirstUnrevoked db.tokens (hashToken t) now,
          ¬(r.tokenHash = hashToken t ∧ r.revokedAt = none) :=
        revokeFirstUnrevoked_exhausts db.tokens (hashToken t) now hnodup
      simp [logout, revokeFirstUnrevoked_of_no_match _ (hashToken t) now2 hafter]

/-- Witness for C6: double logout on the store with one valid record. -/
theorem C6_logout_idempotent_witness :
    (logout dbOne (some 0) 50).1 = { ok := true, cookieCleared := true } ∧
    ((∀ t, (some 0 : Option Nat) = some t →
        ∀ r ∈ dbOne.tokens, ¬(r.tokenHash = hashToken t ∧ r.revokedAt = none)) →
      (logout dbOne (some 0) 50).2 = dbOne) ∧
    (∀ t' r, (some 0 : Option Nat) = some t' → r ∈ dbOne.tokens →
      r.tokenHash = hashToken t' → r.revokedAt = none →
      { r with revokedAt := some 50 } ∈ (logout dbOne (some 0) 50).2.tokens) ∧
    logout (logout dbOne (some 0) 50).2 (some 0) 60 =
      ({ ok := true, cookieCleared := true }, (logout dbOne (some 0) 50).2) :=
  C6_logout_idempotent dbOne (some 0) 50 60 (by decide)

/-! ## Refresh wire characterization -/

/-- C4 counterexample: the claimed biconditional "401 exactly when the
cookie is absent, no record matches, or the record violates
`revokedAt = null ∧ now < expiresAt`" is false on two concrete calls: a
valid record whose owning user is gone still answers 401, and a record
with `expiresAt = now` (invariant violated, since `now < expiresAt` fails)
still answers 200 because the code only rejects `expiresAt < now`. -/
theorem C4_claimed_iff_false :
    ¬ (refreshStatus (refresh dbOrphan (some 0) 50).1 = 401 ↔
        (findByHash dbOrphan (hashToken 0) = none ∨
         ∃ r, findByHash dbOrphan (hashToken 0) = some r ∧
           ¬(r.revokedAt = none ∧ 50 < r.expiresAt))) ∧
    ¬ (refreshStatus (refresh dbBoundary (some 0) 50).1 = 401 ↔
        (findByHash dbBoundary (hashToken 0) = none ∨
         ∃ r, findByHash dbBoundary (hashToken 0) = some r ∧
           ¬(r.revokedAt = none ∧ 50 < r.expiresAt))) := by
  constructor
  · intro hiff
    rcases hiff.mp rfl with hnone | ⟨r, hr, hbad⟩
    · exact Option.noConfusion hnone
    · have hr2 : (some recOrphan : Option RefreshRecord) = some r := hr
      cases Option.some.inj hr2
      exact hbad ⟨rfl, by decide⟩
  · intro hiff
    have h401 := hiff.mpr (Or.inr ⟨recBoundary, rfl,
      fun hv => absurd hv.2 (by decide)⟩)
    exact absurd h401 (by decide)

/-- C4 amended: Refresh answers 401 exactly when the cookie is absent, no
record matches the hash, the record is revoked or expired in the code's
sense (`expiresAt < now`), or the owning user no longer exists; otherwise
it answers 200 carrying the record owner's access assertion and a rotated
cookie distinct from the presented token. -/
theorem C4_refresh_status_characterization (db : Db) (cookie : Option Nat)
    (now : Nat) (hwf : db.WF) :
    (refreshStatus (refresh db cookie now).1 = 401 ↔
      (cookie = none ∨ ∃ t, cookie = some t ∧
        (findByHash db (hashToken t) = none ∨
         ∃ r, findByHash db (hashToken t) = some r ∧
           (r.revokedAt ≠ none ∨ r.expiresAt < now ∨ findUser db r.userId = none)))) ∧
    (∀ s, (refresh db cookie now).1 = .ok s →
      refreshStatus (refresh db cookie now).1 = 200 ∧
      ∃ t r u, cookie = some t ∧ findByHash db (hashToken t) = some r ∧
        r.revokedAt = none ∧ ¬ r.expiresAt < now ∧ findUser db r.userId = some u ∧
        s.accessTokenSub = u.id ∧ s.userId = u.id ∧
        s.newRefreshToken = db.nextTokenSeed ∧ s.newRefreshToken ≠ t) := by
  cases cookie with
  | none =>
    refine ⟨⟨fun _ => Or.inl rfl, fun _ => rfl⟩, fun s hs => ?_⟩
    simp [refresh] at hs
  | some t =>
    cases hfind : findByHash db (hashToken t) with
    | none =>
      refine ⟨⟨fun _ => Or.inr ⟨t, rfl, Or.inl hfind⟩, fun _ => ?_⟩, fun s hs => ?_⟩
      · simp [refresh, refreshCommit, hfind, refreshStatus]
      · simp [refresh, refreshCommit, hfind] at hs
    | some r =>
      cases hrev : r.revokedAt with
      | some v =>
        refine ⟨⟨fun _ => Or.inr ⟨t, rfl, Or.inr ⟨r, hfind, Or.inl (by simp [hrev])⟩⟩,
          fun _ => ?_⟩, fun s hs => ?_⟩
        · simp [refresh, refreshCommit, hfind, hrev, refreshStatus]
        · simp [refresh, refreshCommit, hfind, hrev] at hs
      | none =>
        by_cases hexp : r.expiresAt < now
        · refine ⟨⟨fun _ => Or.inr ⟨t, rfl, Or.inr ⟨r, hfind, Or.inr (Or.inl hexp)⟩⟩,
            fun _ => ?_⟩, fun s hs => ?_⟩
          · simp [refresh, refreshCommit, hfind, hrev, hexp, refreshStatus]
          · simp [refresh, refreshCommit, hfind, hrev, hexp] at hs
        · cases huser : findUser db r.userId with
          | none =>
            refine ⟨⟨fun _ => Or.inr ⟨t, rfl, Or.inr ⟨r, hfind, Or.inr (Or.inr huser)⟩⟩,
              fun _ => ?_⟩, fun s hs => ?_⟩
            · simp [refresh, refreshCommit, hfind, hrev, hexp, huser, refreshStatus]
            · simp [refresh, refreshCommit, hfind, hrev, hexp, huser] at hs
          | some u =>
            have hlt : r.tokenHash < db.nextTokenSeed := by
              have := hwf.2.2.1 r (List.mem_of_find?_eq_some hfind)
              simpa [hashToken] using this
            have hth : r.tokenHash = hashToken t := by
              have := List.find?_some hfind
              simpa using this
            have hok : (refresh db (some t) now).1 =
                .ok { accessTokenSub := u.id, userId := u.id,
                      newRefreshToken := db.nextTokenSeed } := by
              simp [refresh, refreshCommit, hfind, hrev, hexp, huser]
            refine ⟨⟨fun h401 => ?_, fun hconds => ?_⟩, fun s hs => ?_⟩
            · rw [hok] at h401
              simp [refreshStatus] at h401
            · exfalso
              rcases hconds with hnone | ⟨t2, ht2, hbad⟩
              · exact Option.noConfusion hnone
              · cases Option.some.inj ht2
                rcases hbad with hfn | ⟨r2, hr2, hbad2⟩
                · rw [hfind] at hfn; exact Option.noConfusion hfn
                · rw [hfind] at hr2
                  cases Option.some.inj hr2
                  rcases hbad2 with h | h | h
                  · exact h hrev
                  · exact hexp h
                  · rw [huser] at h; exact Option.noConfusion h
            · rw [hok] at hs
              cases Except.ok.inj hs
              refine ⟨by rw [hok]; rfl, t, r, u, rfl, hfind, hrev, hexp, huser,
                rfl, rfl, rfl, ?_⟩
              intro heq
              rw [hth] at hlt
              simp only [hashToken] at hlt heq
              omega

/-- Witness for C4's amended characterization at a concrete valid call. -/
theorem C4_refresh_status_characterization_witness :
    (refreshStatus (refresh dbOne (some 0) 50).1 = 401 ↔
      ((some 0 : Option Nat) = none ∨ ∃ t, (some 0 : Option Nat) = some t ∧
        (findByHash dbOne (hashToken t) = none ∨
         ∃ r, findByHash dbOne (hashToken t) = some r ∧
           (r.revokedAt ≠ none ∨ r.expiresAt < 50 ∨ findUser dbOne r.userId = none)))) ∧
    (∀ s, (refresh dbOne (some 0) 50).1 = .ok s →
      refreshStatus (refresh dbOne (some 0) 50).1 = 200 ∧
      ∃ t r u, (some 0 : Option Nat) = some t ∧ findByHash dbOne (hashToken t) = some r ∧
        r.revokedAt = none ∧ ¬ r.expiresAt < 50 ∧ findUser dbOne r.userId = some u ∧
        s.accessTokenSub = u.id ∧ s.userId = u.id ∧
        s.newRefreshToken = dbOne.nextTokenSeed ∧ s.newRefreshToken ≠ t) :=
  C4_refresh_status_characterization dbOne (some 0) 50 (by decide)

/-! ## Rotation-chain lemmas -/

lemma findByHash_revokeById (tokens : List RefreshRecord) (rid now h : Nat) :
    (revokeById tokens rid now).find? (fun r => r.tokenHash == h) =
      (tokens.find? (fun r => r.tokenHash == h)).map
        (fun r => if r.id == rid then { r with revokedAt := some now } else r) := by
  unfold revokeById
  rw [List.find?_map]
  have hpf : ((fun r : RefreshRecord => r.tokenHash == h) ∘
      fun r => if r.id == rid then { r with revokedAt := some now } else r) =
      fun r : RefreshRecord => r.tokenHash == h := by
    funext r
    by_cases hc : (r.id == rid) = true
    · simp [Function.comp, hc]
    · simp [Function.comp, hc]
  rw [hpf]

lemma revokeById_map_id (tokens : List RefreshRecord) (rid now : Nat) :
    (revokeById tokens rid now).map (fun x => x.id) = tokens.map (fun x => x.id) := by
  unfold revokeById
  rw [List.map_map]
  congr 1
  funext x
  simp only [Function.comp]
  split <;> rfl

lemma revokeById_map_tokenHash (tokens : List RefreshRecord) (rid now : Nat) :
    (revokeById tokens rid now).map (fun x => x.tokenHash) =
      tokens.map (fun x => x.tokenHash) := by
  unfold revokeById
  rw [List.map_map]
  congr 1
  funext x
  simp only [Function.comp]
  split <;> rfl

/-- One successful Refresh: the response carries the owner's assertion and
the next fresh token; afterwards the consumed record is revoked, the
rotated record is present, valid, and owned by the same user, previously
revoked records are untouched, and well-formedness is preserved. -/
lemma refresh_step (db : Db) (t now : Nat) (r : RefreshRecord) (u : User)
    (hwf : db.WF) (hr : findByHash db (hashToken t) = some r)
    (hrev : r.revokedAt = none) (hexp : ¬ r.expiresAt < now)
    (hu : findUser db r.userId = some u) :
    ∃ db',
      refresh db (some t) now =
        (.ok { accessTokenSub := u.id, userId := u.id,
               newRefreshToken := db.nextTokenSeed }, db') ∧
      db'.WF ∧
      db'.users = db.users ∧
      db'.nextTokenSeed = db.nextTokenSeed + 1 ∧
      findByHash db' (hashToken db.nextTokenSeed) =
        some { id := db.nextRecordId, userId := u.id,
               tokenHash := hashToken db.nextTokenSeed,
               expiresAt := refreshTokenExpiresAt now, revokedAt := none } ∧
      findByHash db' (hashToken t) = some { r with revokedAt := some now } ∧
      (∀ h' r', findByHash db h' = some r' → r'.revokedAt.isSome →
        findByHash db' h' = some r') := by
  obtain ⟨hids, hhashes, hhlt, hidlt⟩ := hwf
  have hrmem : r ∈ db.tokens := List.mem_of_find?_eq_some hr
  have hrh : r.tokenHash = hashToken t := by simpa using List.find?_some hr
  refine ⟨{ db with
      tokens := revokeById db.tokens r.id now ++
        [{ id := db.nextRecordId, userId := u.id, tokenHash := hashToken db.nextTokenSeed,
           expiresAt := refreshTokenExpiresAt now, revokedAt := none }]
      nextTokenSeed := db.nextTokenSeed + 1
      nextRecordId := db.nextRecordId + 1 }, ?_, ?_, rfl, rfl, ?_, ?_, ?_⟩
  · simp [refresh, refreshCommit, hr, hrev, hexp, hu]
  · -- well-formedness of the rotated store
    refine ⟨?_, ?_, ?_, ?_⟩
    · simp only [List.map_append, revokeById_map_id, List.map_cons, List.map_nil,
        List.nodup_append]
      refine ⟨hids, List.nodup_singleton _, ?_⟩
      intro a ha hb
      simp only [List.mem_singleton] at hb
      subst hb
      rcases List.mem_map.mp ha with ⟨x, hx, hxa⟩
      exact absurd hxa (Nat.ne_of_lt (hidlt x hx))
    · simp only [List.map_append, revokeById_map_tokenHash, List.map_cons, List.map_nil,
        List.nodup_append]
      refine ⟨hhashes, List.nodup_singleton _, ?_⟩
      intro a ha hb
      simp only [List.mem_singleton] at hb
      subst hb
      rcases List.mem_map.mp ha with ⟨x, hx, hxa⟩
      exact absurd hxa (Nat.ne_of_lt (hhlt x hx))
    · intro x hx
      rcases List.mem_append.mp hx with hx | hx
      · rcases List.mem_map.mp hx with ⟨y, hy, hyx⟩
        have hyh : x.tokenHash = y.tokenHash := by
          subst hyx; split <;> rfl
        rw [hyh]
        exact Nat.lt_succ_of_lt (hhlt y hy)
      · simp only [List.mem_singleton] at hx
        subst hx
        exact Nat.lt_succ_self _
    · intro x hx
      rcases List.mem_append.mp hx with hx | hx
      · rcases List.mem_map.mp hx with ⟨y, hy, hyx⟩
        have hyid : x.id = y.id := by
          subst hyx; split <;> rfl
        rw [hyid]
        exact Nat.lt_succ_of_lt (hidlt y hy)
      · simp only [List.mem_singleton] at hx
        subst hx
        exact Nat.lt_succ_self _
  · -- the rotated record is found under the fresh hash
    simp only [findByHash]
    rw [List.find?_append, findByHash_revokeById]
    have hnone : db.tokens.find?
        (fun r => r.tokenHash == hashToken db.nextTokenSeed) = none := by
      rw [List.find?_eq_none]
      intro x hx
      simp only [beq_iff_eq]
      exact Nat.ne_of_lt (hhlt x hx)
    rw [hnone]
    simp
  · -- the consumed record is found revoked under its old hash
    simp only [findByHash]
    rw [List.find?_append, findByHash_revokeById]
    have hfr : db.tokens.find? (fun r => r.tokenHash == hashToken t) = some r := hr
    rw [hfr]
    simp
  · -- previously revoked records are untouched
    intro h' r' hf hrs
    have hfind : db.tokens.find? (fun x => x.tokenHash == h') = some r' := hf
    simp only [findByHash]
    rw [List.find?_append, findByHash_revokeById, hfind]
    have hne : (r'.id == r.id) = false := by
      rw [beq_eq_false_iff_ne]
      intro hid
      have := List.inj_on_of_nodup_map hids (List.mem_of_find?_eq_some hfind) hrmem hid
      subst this
      rw [hrev] at hrs
      exact Bool.noConfusion hrs
    simp [hne]
    intro hid
    rw [hid] at hne
    simp at hne

/-- The rotation chain under the step invariant: the produced tokens are
the consecutive seeds, already-revoked records survive the whole chain,
and every consumed token's record ends up revoked. -/
lemma refreshChain_spec (n : Nat) : ∀ (db : Db) (t now : Nat) (r : RefreshRecord)
    (u : User), db.WF → findByHash db (hashToken t) = some r → r.revokedAt = none →
    ¬ r.expiresAt < now → findUser db r.userId = some u →
    (refreshChain db t now n).1 = List.range' db.nextTokenSeed n ∧
    (∀ h' r', findByHash db h' = some r' → r'.revokedAt.isSome →
      findByHash (refreshChain db t now n).2 h' = some r') ∧
    (∀ t' ∈ (t :: (refreshChain db t now n).1).dropLast,
      ∃ r', findByHash (refreshChain db t now n).2 (hashToken t') = some r' ∧
        r'.revokedAt.isSome) := by
  induction n with
  | zero =>
    intro db t now r u hwf hr hrev hexp hu
    exact ⟨rfl, fun h' r' hf _ => hf, fun t' ht' => absurd ht' (by simp [refreshChain])⟩
  | succ n ih =>
    intro db t now r u hwf hr hrev hexp hu
    obtain ⟨db', hre, hwf', husers, hseed, hnew, hold, hmono⟩ :=
      refresh_step db t now r u hwf hr hrev hexp hu
    have hchain : refreshChain db t now (n + 1) =
        (db.nextTokenSeed :: (refreshChain db' db.nextTokenSeed now n).1,
         (refreshChain db' db.nextTokenSeed now n).2) := by
      simp [refreshChain, hre]
    have huid : u.id = r.userId := by simpa using List.find?_some hu
    have hu' : findUser db' u.id = some u := by
      unfold findUser
      rw [husers, huid]
      exact hu
    have hnewexp : ¬ refreshTokenExpiresAt now < now := by
      unfold refreshTokenExpiresAt
      omega
    obtain ⟨hc1, hc2, hc3⟩ := ih db' db.nextTokenSeed now _ u hwf' hnew rfl hnewexp hu'
    refine ⟨?_, ?_, ?_⟩
    · rw [hchain]
      simp only []
      rw [hc1, hseed, List.range'_succ]
    · intro h' r' hf hrs
      rw [hchain]
      exact hc2 h' r' (hmono h' r' hf hrs) hrs
    · intro t' ht'
      rw [hchain] at ht' ⊢
      simp only []
      rw [show (t :: db.nextTokenSeed :: (refreshChain db' db.nextTokenSeed now n).1).dropLast
          = t :: (db.nextTokenSeed :: (refreshChain db' db.nextTokenSeed now n).1).dropLast
          from rfl] at ht'
      rcases List.mem_cons.mp ht' with h | h
      · subst h
        exact ⟨{ r with revokedAt := some now }, hc2 _ _ hold rfl, rfl⟩
      · exact hc3 t' h

/-- C1: a successful Refresh revokes the consumed record, creates a valid
record for the same user, and returns the owner's assertion plus the
rotated token; N sequential Refresh calls on one lineage produce N
distinct tokens, and replaying any consumed token afterwards fails with
`TokenRevoked`. -/
theorem C1_refresh_rotation_chain (db : Db) (t now n : Nat) (r : RefreshRecord)
    (u : User) (hwf : db.WF) (hr : findByHash db (hashToken t) = some r)
    (hrev : r.revokedAt = none) (hexp : ¬ r.expiresAt < now)
    (hu : findUser db r.userId = some u) :
    (∃ db' s, refresh db (some t) now = (.ok s, db') ∧
      s.accessTokenSub = u.id ∧ s.userId = u.id ∧
      (∃ rOld, findByHash db' (hashToken t) = some rOld ∧
        rOld.revokedAt = some now) ∧
      (∃ rNew, findByHash db' (hashToken s.newRefreshToken) = some rNew ∧
        rNew.userId = u.id ∧ rNew.revokedAt = none)) ∧
    (refreshChain db t now n).1.length = n ∧
    (refreshChain db t now n).1.Nodup ∧
    (∀ t' ∈ (t :: (refreshChain db t now n).1).dropLast,
      (refresh (refreshChain db t now n).2 (some t') now).1 =
        .error .TokenRevoked) := by
  obtain ⟨db', hre, hwf', husers, hseed, hnew, hold, hmono⟩ :=
    refresh_step db t now r u hwf hr hrev hexp hu
  obtain ⟨hc1, hc2, hc3⟩ := refreshChain_spec n db t now r u hwf hr hrev hexp hu
  refine ⟨⟨db', _, hre, rfl, rfl, ⟨_, hold, rfl⟩, ⟨_, hnew, rfl, rfl⟩⟩, ?_, ?_, ?_⟩
  · rw [hc1]
    exact List.length_range' _ 1 n
  · rw [hc1]
    exact List.nodup_range' _ n
  · intro t' ht'
    obtain ⟨r', hfr', hrs'⟩ := hc3 t' ht'
    simp [refresh, refreshCommit, hfr', hrs']

/-- Witness for C1: two rotations starting from the one-record store. -/
theorem C1_refresh_rotation_chain_witness :
    (∃ db' s, refresh dbOne (some 0) 50 = (.ok s, db') ∧
      s.accessTokenSub = userA.id ∧ s.userId = userA.id ∧
      (∃ rOld, findByHash db' (hashToken 0) = some rOld ∧
        rOld.revokedAt = some 50) ∧
      (∃ rNew, findByHash db' (hashToken s.newRefreshToken) = some rNew ∧
        rNew.userId = userA.id ∧ rNew.revokedAt = none)) ∧
    (refreshChain dbOne 0 50 2).1.length = 2 ∧
    (refreshChain dbOne 0 50 2).1.Nodup ∧
    (∀ t' ∈ ((0 : Nat) :: (refreshChain dbOne 0 50 2).1).dropLast,
      (refresh (refreshChain dbOne 0 50 2).2 (some t') 50).1 =
        .error .TokenRevoked) :=
  C1_refresh_rotation_chain dbOne 0 50 2
    { id := 0, userId := 7, tokenHash := hashToken 0, expiresAt := 100, revokedAt := none }
    userA (by decide) (by decide) (by decide) (by decide) (by decide)

end SprintDesk
